import Mathlib

/-!
A verification development for `src/resnet/train.py`: the batched predictor
`predict_in_batches` and the training / evaluation / reporting pipeline
`train`.  Images and model parameters are abstract types; eval-mode model
application is a per-image function; tensors are lists; the ambient autograd
flag and the model train/eval mode are explicit state; `np.vstack` is
`vstack`, which fails (modelling the raised `ValueError`) on an empty list of
chunks; the touched slice of the filesystem is an explicit `FS` value.
-/

namespace ResnetTrain

variable {P α β : Type*}

/-- The list of slices `images[i:i+batch_size]` taken by the loop
`for i in range(0, images.shape[0], batch_size)`: slices of length at most
`B` starting at `0, B, 2B, ...`; there are `⌈length / B⌉` of them. -/
def chunksOf (B : Nat) (xs : List α) : List (List α) :=
  (List.range ((xs.length + B - 1) / B)).map fun i => (xs.drop (i * B)).take B

/-- Model of `np.vstack`: concatenates a nonempty list of prediction chunks
along the sample axis, and fails on an empty list of chunks (numpy raises
`ValueError: need at least one array to concatenate`). -/
def vstack : List (List β) → Option (List β)
  | [] => none
  | c :: cs => some ((c :: cs).flatten)

/-- A PyTorch module as `train.py` uses it: a parameter state, a train/eval
mode flag (`model.train()` / `model.eval()`), and the eval-mode forward
function, applied per image (eval-mode inference has no cross-sample
interaction, so a batch forward is a map). -/
structure Model (P α β : Type*) where
  params : P
  training : Bool
  forward : P → α → β

/-- The outcome of one `predict_in_batches` call: the returned array (or
`none` for a raised exception), the model object after the call, the ambient
autograd flag in effect during the forward passes, and the ambient autograd
flag after the call returns. -/
structure PredOut (P α β : Type*) where
  out : Option (List β)
  modelAfter : Model P α β
  gradDuring : Bool
  gradAfter : Bool

/-- The pure value computed by `predict_in_batches`: run the model on each
slice of at most `batch_size` images and `vstack` the per-chunk outputs. -/
def predictOut (f : α → β) (images : List α) (batch_size : Nat) : Option (List β) :=
  vstack ((chunksOf batch_size images).map (List.map f))

/-- Embedding of `predict_in_batches(model, images, batch_size)`: calls
`model.eval()` (not undone afterwards), disables gradient tracking for the
duration of the call (`with torch.no_grad():`, which restores the ambient
flag on exit), applies the model to consecutive slices of at most
`batch_size` images and `vstack`s the chunk outputs. -/
def predict_in_batches (m : Model P α β) (images : List α) (batch_size : Nat)
    (gradBefore : Bool) : PredOut P α β :=
  { out := predictOut (m.forward m.params) images batch_size
    modelAfter := { m with training := false }
    gradDuring := false
    gradAfter := gradBefore }

/-- Epoch-loop events in execution order: the mini-batch training pass of an
epoch, and the evaluation-and-logging step of an epoch. -/
inductive Ev where
  | trainE (epoch : Nat)
  | evalE (epoch : Nat)

/-- Everything `train()` consumes: the external model and optimizer
(`forward` is eval-mode per-image application, `optStep` is one
`zero_grad` / forward / `backward` / `step` update on one mini-batch,
`init` the freshly constructed parameters), the data provider outputs
(`train_loader` mini-batches, the raw splits and the normalization
statistics from `get_raw_split`) and the `config` values. -/
structure Ctx (P α : Type*) where
  forward : P → α → ℚ
  optStep : P → List α × List ℚ → P
  init : P
  train_loader : List (List α × List ℚ)
  train_images : List α
  train_labels : List ℚ
  test_images : List α
  test_labels : List ℚ
  mean_val : ℚ
  std_val : ℚ
  num_epochs : Nat
  train_batch_size : Nat
  test_batch_size : Nat
  target_col : Nat
  model_dir : String

/-- One epoch of the training phase: fold the optimizer update over all
mini-batches of `train_loader`. -/
def epochStep (c : Ctx P α) (p : P) : P :=
  c.train_loader.foldl c.optStep p

/-- The evaluation condition `epoch % 5 == 0 or epoch == config.num_epochs - 1`. -/
def evalCond (e n : Nat) : Bool :=
  e % 5 == 0 || e == n - 1

/-- One evaluation step: batched prediction over the full train and test
splits (the model enters in training mode; the first `predict_in_batches`
call switches it to eval and the second call receives that same object),
with `mean_squared_error`'s sample-count consistency check; `none` models a
raised exception aborting the run. -/
def evalStep (c : Ctx P α) (p : P) : Option (List ℚ × List ℚ) :=
  match (predict_in_batches ⟨p, true, c.forward⟩ c.train_images
          c.train_batch_size true),
        (predict_in_batches (predict_in_batches ⟨p, true, c.forward⟩ c.train_images
            c.train_batch_size true).modelAfter c.test_images c.test_batch_size
          (predict_in_batches ⟨p, true, c.forward⟩ c.train_images
            c.train_batch_size true).gradAfter) with
  | r1, r2 =>
    match r1.out, r2.out with
    | some tp, some sp =>
      if tp.length = c.train_labels.length ∧ sp.length = c.test_labels.length then
        some (tp, sp)
      else none
    | _, _ => none

/-- The epoch loop of `train()` over a list of epoch indices: train on all
mini-batches (`model.train()`, then one optimizer step per batch), then,
when `evalCond` holds, evaluate and log.  The first component is `none` when
an exception aborts the run, otherwise the final parameters together with
the current values of the `train_preds` / `test_preds` variables (`none`
while they are still unassigned); the second component is the event trace. -/
def runEpochs (c : Ctx P α) :
    List Nat → P → Option (List ℚ × List ℚ) →
      Option (P × Option (List ℚ × List ℚ)) × List Ev
  | [], p, snap => (some (p, snap), [])
  | e :: rest, p, snap =>
    if evalCond e c.num_epochs then
      match evalStep c (epochStep c p) with
      | some s =>
        ((runEpochs c rest (epochStep c p) (some s)).1,
          Ev.trainE e :: Ev.evalE e :: (runEpochs c rest (epochStep c p) (some s)).2)
      | none => (none, [Ev.trainE e])
    else
      ((runEpochs c rest (epochStep c p) snap).1,
        Ev.trainE e :: (runEpochs c rest (epochStep c p) snap).2)

/-- Denormalization used by `train()`: `value * std + mean`. -/
def denorm (mean std v : ℚ) : ℚ :=
  v * std + mean

/-- Modelled from the spec: the normalization that produced the normalized
targets lives in `dataset.py`, which is not among the sources; the spec
describes it as the affine rescaling of targets to zero mean and unit
variance whose exact inverse is `value * std + mean`, that is
`v ↦ (v - mean) / std`. -/
def normalize (mean std v : ℚ) : ℚ :=
  (v - mean) / std

/-- One sheet written by `DataFrame.to_excel`: the sheet name, the `"True"`
and `"Predicted"` columns, and whether an index column is written
(`index=False` in the source, so `false` everywhere). -/
structure Sheet where
  name : String
  colTrue : List ℚ
  colPred : List ℚ
  indexCol : Bool

/-- The workbook written by the `pd.ExcelWriter` block. -/
structure Report where
  sheets : List Sheet

/-- Contents of the checkpoint written by `torch.save`: the dictionary with
keys `model_state_dict`, `mean` and `std`. -/
structure Ckpt (P : Type*) where
  model_state_dict : P
  mean : ℚ
  std : ℚ

inductive FileData (P : Type*) where
  | xlsx (r : Report)
  | pth (k : Ckpt P)

/-- The slice of the filesystem `train()` touches: which directories exist
and what content each path holds. -/
structure FS (P : Type*) where
  hasDir : String → Bool
  file : String → Option (FileData P)

/-- Writing a file: the content at `path` is replaced wholesale, every other
path is untouched. -/
def writeFile (fs : FS P) (path : String) (d : FileData P) : FS P :=
  { fs with file := fun q => if q = path then some d else fs.file q }

/-- Model of `os.makedirs(dir, exist_ok=True)`: ensures the directory
exists; there is no error branch whether or not it already exists. -/
def makeDirs (fs : FS P) (d : String) : FS P :=
  { fs with hasDir := fun q => if q = d then true else fs.hasDir q }

/-- How a `train()` run ends. -/
inductive TStatus where
  | ok
  /-- the `NameError` raised when `train_preds` is referenced before
  assignment in the denormalization step. -/
  | nameErr
  /-- an exception raised inside the epoch loop and propagated (e.g.
  `np.vstack` on no chunks, or `mean_squared_error` on mismatched sample
  counts). -/
  | valueErr

/-- The observable outcome of a `train()` run: how it ended, the filesystem
afterwards, and the trace of training/evaluation events. -/
structure RunOut (P : Type*) where
  status : TStatus
  fs : FS P
  trace : List Ev

/-- The report path `f"predictions_vs_actual_col{target}.xlsx"`. -/
def reportPath (c : Ctx P α) : String :=
  "predictions_vs_actual_col" ++ toString c.target_col ++ ".xlsx"

/-- The checkpoint path `os.path.join(config.model_dir, f"model{target}.pth")`. -/
def ckptPath (c : Ctx P α) : String :=
  c.model_dir ++ "/model" ++ toString c.target_col ++ ".pth"

/-- The tail of `train()` after the epoch loop: denormalize the retained
predictions and the labels with the single `(mean_val, std_val)` pair, write
the two-sheet workbook, create the model directory, write the checkpoint.
A `none` snapshot is the `NameError` on `train_preds`; an aborted loop
propagates its exception.  In both failure cases nothing is written. -/
def finishRun (c : Ctx P α) (fs0 : FS P)
    (res : Option (P × Option (List ℚ × List ℚ))) (tr : List Ev) : RunOut P :=
  match res with
  | none => ⟨TStatus.valueErr, fs0, tr⟩
  | some (_, none) => ⟨TStatus.nameErr, fs0, tr⟩
  | some (p, some (tp, sp)) =>
    ⟨TStatus.ok,
      writeFile
        (makeDirs
          (writeFile fs0 (reportPath c)
            (FileData.xlsx
              ⟨[⟨"Train", c.train_labels.map (denorm c.mean_val c.std_val),
                  tp.map (denorm c.mean_val c.std_val), false⟩,
                ⟨"Test", c.test_labels.map (denorm c.mean_val c.std_val),
                  sp.map (denorm c.mean_val c.std_val), false⟩]⟩))
          c.model_dir)
        (ckptPath c) (FileData.pth ⟨p, c.mean_val, c.std_val⟩),
      tr⟩

/-- Embedding of `train()`: run the epoch loop over
`range(config.num_epochs)` starting from fresh parameters and unassigned
prediction variables, then denormalize, report and checkpoint. -/
def train (c : Ctx P α) (fs0 : FS P) : RunOut P :=
  finishRun c fs0 (runEpochs c (List.range c.num_epochs) c.init none).1
    (runEpochs c (List.range c.num_epochs) c.init none).2

/-- Folding the per-epoch training phase over a list of epochs. -/
def foldP (c : Ctx P α) (es : List Nat) (p : P) : P :=
  es.foldl (fun q _ => epochStep c q) p

/-- The parameters after all configured epochs of training. -/
def finalParams (c : Ctx P α) : P :=
  foldP c (List.range c.num_epochs) c.init

/-- The pair of whole-split prediction arrays produced by a successful
evaluation at parameters `p`. -/
def evalPair (c : Ctx P α) (p : P) : List ℚ × List ℚ :=
  (c.train_images.map (c.forward p), c.test_images.map (c.forward p))

/-- Specification-side recursion computing the value of the
`train_preds` / `test_preds` variables after a run of the epoch loop in
which every evaluation succeeds. -/
def foldSnap (c : Ctx P α) :
    List Nat → P → Option (List ℚ × List ℚ) → Option (List ℚ × List ℚ)
  | [], _, snap => snap
  | e :: rest, p, snap =>
    foldSnap c rest (epochStep c p)
      (if evalCond e c.num_epochs then some (evalPair c (epochStep c p)) else snap)

/-- Specification-side event trace of the epoch loop: each epoch trains,
then evaluates exactly when `evalCond` holds. -/
def schedTrace (n : Nat) (es : List Nat) : List Ev :=
  es.flatMap fun e => Ev.trainE e :: (if evalCond e n then [Ev.evalE e] else [])

/-- A concrete model used to evaluate the predictor at specific inputs. -/
def mW : Model ℚ ℚ ℚ :=
  ⟨2, true, fun p x => p * x⟩

/-- A concrete training context used to evaluate `train` at specific
inputs. -/
def ctxW : Ctx ℚ ℚ :=
  { forward := fun p x => p * x
    optStep := fun p b => p + b.2.headD 0
    init := 1
    train_loader := [([1], [2])]
    train_images := [1, 2]
    train_labels := [3, 4]
    test_images := [5]
    test_labels := [6]
    mean_val := 3
    std_val := 2
    num_epochs := 7
    train_batch_size := 1
    test_batch_size := 2
    target_col := 4
    model_dir := "models" }

/-- The concrete context with no epochs configured. -/
def ctxW0 : Ctx ℚ ℚ :=
  { ctxW with num_epochs := 0 }

/-- A concrete empty filesystem. -/
def fsW : FS ℚ :=
  ⟨fun _ => false, fun _ => none⟩

end ResnetTrain

namespace ResnetTrain

variable {P α β : Type*}

lemma chunksOf_nil (B : Nat) : chunksOf B ([] : List α) = [] := by
  have h0 : (B - 1) / B = 0 := by
    rcases B with _ | b
    · simp
    · exact Nat.div_eq_of_lt (by omega)
  simp [chunksOf, h0]

lemma chunksOf_cons (B : Nat) (hB : 1 ≤ B) (xs : List α) (hxs : xs ≠ []) :
    chunksOf B xs = xs.take B :: chunksOf B (xs.drop B) := by
  have hN : 1 ≤ xs.length := List.length_pos.mpr hxs
  have h1 : (xs.length + B - 1) / B = (xs.length - 1) / B + 1 := by
    have e : xs.length + B - 1 = (xs.length - 1) + B := by omega
    rw [e, Nat.add_div_right _ hB]
  have h2 : ((xs.drop B).length + B - 1) / B = (xs.length - 1) / B := by
    rw [List.length_drop]
    rcases le_or_lt xs.length B with h | h
    · have e1 : xs.length - B = 0 := by omega
      rw [e1, Nat.div_eq_of_lt (by omega), Nat.div_eq_of_lt (by omega)]
    · have e2 : xs.length - B + B - 1 = xs.length - 1 := by omega
      rw [e2]
  unfold chunksOf
  rw [h1, h2, List.range_succ_eq_map, List.map_cons, List.map_map]
  refine congrArg₂ List.cons (by rw [Nat.zero_mul, List.drop_zero]) ?_
  congr 1
  funext i
  simp only [Function.comp]
  rw [Nat.succ_mul, List.drop_drop, Nat.add_comm (i * B) B]

lemma chunksOf_flatten (B : Nat) (hB : 1 ≤ B) (xs : List α) :
    (chunksOf B xs).flatten = xs := by
  suffices h : ∀ n (ys : List α), ys.length ≤ n → (chunksOf B ys).flatten = ys from
    h xs.length xs le_rfl
  intro n
  induction n with
  | zero =>
    intro ys hy
    have : ys = [] := List.length_eq_zero.mp (Nat.le_zero.mp hy)
    subst this
    rw [chunksOf_nil]
    rfl
  | succ n ih =>
    intro ys hy
    rcases eq_or_ne ys ([] : List α) with rfl | hne
    · rw [chunksOf_nil]; rfl
    · rw [chunksOf_cons B hB ys hne, List.flatten_cons,
        ih (ys.drop B) ?_, List.take_append_drop]
      rw [List.length_drop]
      have : 1 ≤ ys.length := List.length_pos.mpr hne
      omega

lemma chunksOf_length_le (B : Nat) (xs : List α) :
    ∀ ch ∈ chunksOf B xs, ch.length ≤ B := by
  intro ch hch
  obtain ⟨i, _, rfl⟩ := List.mem_map.mp hch
  simp [List.length_take]

lemma vstack_of_ne_nil (cs : List (List β)) (h : cs ≠ []) :
    vstack cs = some cs.flatten := by
  cases cs with
  | nil => exact absurd rfl h
  | cons c cs => rfl

lemma predictOut_eq (f : α → β) (images : List α) (B : Nat)
    (hB : 1 ≤ B) (himg : images ≠ []) :
    predictOut f images B = some (images.map f) := by
  unfold predictOut
  have hne : (chunksOf B images).map (List.map f) ≠ [] := by
    rw [chunksOf_cons B hB images himg]
    simp
  rw [vstack_of_ne_nil _ hne, ← List.map_flatten, chunksOf_flatten B hB]

lemma evalStep_eq (c : Ctx P α) (p : P)
    (hB1 : 1 ≤ c.train_batch_size) (hB2 : 1 ≤ c.test_batch_size)
    (hI1 : c.train_images ≠ []) (hI2 : c.test_images ≠ [])
    (hL1 : c.train_images.length = c.train_labels.length)
    (hL2 : c.test_images.length = c.test_labels.length) :
    evalStep c p = some (evalPair c p) := by
  unfold evalStep
  simp only [predict_in_batches]
  rw [predictOut_eq _ _ _ hB1 hI1, predictOut_eq _ _ _ hB2 hI2]
  simp [evalPair, hL1, hL2]

lemma runEpochs_eq (c : Ctx P α)
    (hB1 : 1 ≤ c.train_batch_size) (hB2 : 1 ≤ c.test_batch_size)
    (hI1 : c.train_images ≠ []) (hI2 : c.test_images ≠ [])
    (hL1 : c.train_images.length = c.train_labels.length)
    (hL2 : c.test_images.length = c.test_labels.length) :
    ∀ (es : List Nat) (p : P) (snap : Option (List ℚ × List ℚ)),
      runEpochs c es p snap =
        (some (foldP c es p, foldSnap c es p snap), schedTrace c.num_epochs es) := by
  intro es
  induction es with
  | nil =>
    intro p snap
    simp [runEpochs, foldP, foldSnap, schedTrace]
  | cons e rest ih =>
    intro p snap
    by_cases hc : evalCond e c.num_epochs
    · simp only [runEpochs, hc, if_true,
        evalStep_eq c _ hB1 hB2 hI1 hI2 hL1 hL2, ih]
      simp [foldP, foldSnap, schedTrace, hc]
    · simp only [runEpochs, hc, if_false, ih]
      simp [foldP, foldSnap, schedTrace, hc]

lemma train_trace_eq (c : Ctx P α) (fs0 : FS P) :
    (train c fs0).trace = (runEpochs c (List.range c.num_epochs) c.init none).2 := by
  unfold train
  rcases (runEpochs c (List.range c.num_epochs) c.init none).1 with _ | ⟨p, s⟩
  · rfl
  · rcases s with _ | ⟨tp, sp⟩
    · rfl
    · rfl

lemma foldP_concat (c : Ctx P α) (es : List Nat) (e : Nat) (p : P) :
    foldP c (es ++ [e]) p = epochStep c (foldP c es p) := by
  simp [foldP, List.foldl_append]

lemma foldSnap_concat (c : Ctx P α) (es : List Nat) (e : Nat) :
    ∀ (p : P) (snap : Option (List ℚ × List ℚ)),
      foldSnap c (es ++ [e]) p snap =
        if evalCond e c.num_epochs then
          some (evalPair c (epochStep c (foldP c es p)))
        else foldSnap c es p snap := by
  induction es with
  | nil =>
    intro p snap
    simp [foldSnap, foldP]
  | cons a es ih =>
    intro p snap
    show foldSnap c (es ++ [e]) (epochStep c p) _ = _
    rw [ih]
    simp [foldSnap, foldP]

lemma range_concat (n : Nat) (hn : 1 ≤ n) :
    List.range n = List.range (n - 1) ++ [n - 1] := by
  conv_lhs => rw [show n = (n - 1) + 1 by omega]
  rw [List.range_succ]

lemma evalCond_last (n : Nat) : evalCond (n - 1) n = true := by
  simp [evalCond]

lemma foldSnap_range (c : Ctx P α) (hn : 1 ≤ c.num_epochs) :
    foldSnap c (List.range c.num_epochs) c.init none =
      some (evalPair c (finalParams c)) := by
  rw [finalParams, range_concat c.num_epochs hn, foldSnap_concat, foldP_concat,
    evalCond_last, if_pos rfl]

lemma train_ok (c : Ctx P α) (fs0 : FS P)
    (hB1 : 1 ≤ c.train_batch_size) (hB2 : 1 ≤ c.test_batch_size)
    (hI1 : c.train_images ≠ []) (hI2 : c.test_images ≠ [])
    (hL1 : c.train_images.length = c.train_labels.length)
    (hL2 : c.test_images.length = c.test_labels.length)
    (hn : 1 ≤ c.num_epochs) :
    train c fs0 =
      ⟨TStatus.ok,
        writeFile
          (makeDirs
            (writeFile fs0 (reportPath c)
              (FileData.xlsx
                ⟨[⟨"Train", c.train_labels.map (denorm c.mean_val c.std_val),
                    (c.train_images.map (c.forward (finalParams c))).map
                      (denorm c.mean_val c.std_val), false⟩,
                  ⟨"Test", c.test_labels.map (denorm c.mean_val c.std_val),
                    (c.test_images.map (c.forward (finalParams c))).map
                      (denorm c.mean_val c.std_val), false⟩]⟩))
            c.model_dir)
          (ckptPath c) (FileData.pth ⟨finalParams c, c.mean_val, c.std_val⟩),
        schedTrace c.num_epochs (List.range c.num_epochs)⟩ := by
  unfold train
  rw [runEpochs_eq c hB1 hB2 hI1 hI2 hL1 hL2, foldSnap_range c hn]
  rw [finishRun]
  rfl

lemma append_xlsx_ne_append_pth (s t : String) : s ++ ".xlsx" ≠ t ++ ".pth" := by
  intro h
  have hd : (s ++ ".xlsx").data = (t ++ ".pth").data := by rw [h]
  rw [String.data_append, String.data_append] at hd
  have e1 : (".xlsx" : String).data = ['.', 'x', 'l', 's', 'x'] := rfl
  have e2 : (".pth" : String).data = ['.', 'p', 't', 'h'] := rfl
  rw [e1, e2] at hd
  have h3 := congrArg (fun l => l.reverse.head?) hd
  simp [List.reverse_append] at h3

lemma reportPath_ne_ckptPath (c : Ctx P α) : reportPath c ≠ ckptPath c := by
  unfold reportPath ckptPath
  exact append_xlsx_ne_append_pth _ _

/-- C1, counterexample to the claim as stated: at `N = 0` images (with batch
size `B = 1`), `predict_in_batches` does not return `0` outputs — the chunk
list is empty, `np.vstack` raises, and no output is produced. -/
theorem c1_counterexample :
    (predict_in_batches mW ([] : List ℚ) 1 true).out = none := by
  decide

/-- C1 (amended: `N ≥ 1` in place of `N ≥ 0`; at `N = 0` the call raises
instead, see the counterexample): for every model, every input of `N ≥ 1`
images and every batch size `B ≥ 1`, `predict_in_batches` returns exactly
`N` outputs equal to running the model on the whole input at once; the
input is processed in chunks of at most `B` that concatenate, in input
order, back to the whole input. -/
theorem c1_predict_refines (m : Model P α β) (images : List α)
    (B : Nat) (g : Bool) (hB : 1 ≤ B) (himg : images ≠ []) :
    ∃ ys : List β, (predict_in_batches m images B g).out = some ys ∧
      ys.length = images.length ∧
      ys = images.map (m.forward m.params) ∧
      (∀ ch ∈ chunksOf B images, ch.length ≤ B) ∧
      (chunksOf B images).flatten = images := by
  refine ⟨images.map (m.forward m.params), ?_, by simp, rfl,
    chunksOf_length_le B images, chunksOf_flatten B hB images⟩
  show predictOut (m.forward m.params) images B = _
  exact predictOut_eq _ _ _ hB himg

/-- Witness for C1 (amended) at a concrete model, three images, batch size
two. -/
theorem c1_predict_refines_witness :
    1 ≤ 2 ∧ ([10, 20, 30] : List ℚ) ≠ [] ∧
      (∃ ys : List ℚ,
        (predict_in_batches mW ([10, 20, 30] : List ℚ) 2 true).out = some ys ∧
        ys.length = ([10, 20, 30] : List ℚ).length ∧
        ys = ([10, 20, 30] : List ℚ).map (mW.forward mW.params) ∧
        (∀ ch ∈ chunksOf 2 ([10, 20, 30] : List ℚ), ch.length ≤ 2) ∧
        (chunksOf 2 ([10, 20, 30] : List ℚ)).flatten = [10, 20, 30]) :=
  ⟨by decide, by decide,
    c1_predict_refines mW [10, 20, 30] 2 true (by decide) (by decide)⟩

/-- C2: evaluated at an input with zero images and batch size `1`,
`predict_in_batches` produces no output at all — the chunk loop never runs
and `np.vstack([])` raises `ValueError: need at least one array to
concatenate` — rather than the well-defined empty output the claim
requires. -/
theorem c2_empty_input_fails :
    (predict_in_batches mW ([] : List ℚ) 1 false).out = none ∧
      (predict_in_batches mW ([] : List ℚ) 1 false).out ≠ some [] := by
  refine ⟨by decide, by decide⟩

/-- C3: in `train()`, given a wellformed data provider (nonempty splits
with matching image/label counts) and positive batch sizes, the evaluation
step runs, right after the training phase of epoch `e`, exactly when
`e % 5 = 0` or `e` is the final epoch `num_epochs - 1`, and on no other
epoch. -/
theorem c3_eval_schedule (c : Ctx P α) (fs0 : FS P)
    (hB1 : 1 ≤ c.train_batch_size) (hB2 : 1 ≤ c.test_batch_size)
    (hI1 : c.train_images ≠ []) (hI2 : c.test_images ≠ [])
    (hL1 : c.train_images.length = c.train_labels.length)
    (hL2 : c.test_images.length = c.test_labels.length) :
    (train c fs0).trace =
      (List.range c.num_epochs).flatMap fun e =>
        Ev.trainE e ::
          (if e % 5 = 0 ∨ e = c.num_epochs - 1 then [Ev.evalE e] else []) := by
  rw [train_trace_eq, runEpochs_eq c hB1 hB2 hI1 hI2 hL1 hL2]
  show schedTrace c.num_epochs (List.range c.num_epochs) = _
  unfold schedTrace
  have hiff : ∀ e', (evalCond e' c.num_epochs = true) ↔
      (e' % 5 = 0 ∨ e' = c.num_epochs - 1) := by
    intro e'
    simp [evalCond]
  congr 1
  funext e
  by_cases h : e % 5 = 0 ∨ e = c.num_epochs - 1
  · rw [if_pos ((hiff e).mpr h), if_pos h]
  · rw [if_neg (fun hh => h ((hiff e).mp hh)), if_neg h]

/-- Witness for C3 at a concrete context with seven epochs (evaluations at
epochs 0, 5 and 6). -/
theorem c3_eval_schedule_witness :
    1 ≤ ctxW.train_batch_size ∧ 1 ≤ ctxW.test_batch_size ∧
      ctxW.train_images ≠ [] ∧ ctxW.test_images ≠ [] ∧
      ctxW.train_images.length = ctxW.train_labels.length ∧
      ctxW.test_images.length = ctxW.test_labels.length ∧
      (train ctxW fsW).trace =
        (List.range ctxW.num_epochs).flatMap fun e =>
          Ev.trainE e ::
            (if e % 5 = 0 ∨ e = ctxW.num_epochs - 1 then [Ev.evalE e] else []) :=
  ⟨by decide, by decide, by decide, by decide, by decide, by decide,
    c3_eval_schedule ctxW fsW (by decide) (by decide) (by decide) (by decide)
      (by decide) (by decide)⟩

/-- C4: if the configured epoch count makes the evaluation condition never
trigger (possible only with fewer than 1 epoch), the prediction variables
are never assigned, and the denormalization/reporting step fails with the
undefined-reference error before writing anything. -/
theorem c4_never_eval_name_error (c : Ctx P α) (fs0 : FS P)
    (h : ∀ e, e < c.num_epochs → evalCond e c.num_epochs = false) :
    (train c fs0).status = TStatus.nameErr ∧ (train c fs0).fs = fs0 := by
  have hn : c.num_epochs = 0 := by
    by_contra hnz
    have h0 := h 0 (by omega)
    simp [evalCond] at h0
  unfold train
  rw [hn]
  exact ⟨rfl, rfl⟩

/-- Witness for C4 at the concrete context with zero epochs. -/
theorem c4_never_eval_name_error_witness :
    (∀ e, e < ctxW0.num_epochs → evalCond e ctxW0.num_epochs = false) ∧
      ((train ctxW0 fsW).status = TStatus.nameErr ∧ (train ctxW0 fsW).fs = fsW) :=
  ⟨by decide, c4_never_eval_name_error ctxW0 fsW (by decide)⟩

/-- C5: denormalization in `train()` maps every `v` to `v * std + mean`; it
is deterministic, order-preserving (for the positive standard deviation of
the target distribution), the exact inverse of the normalization
`v ↦ (v - mean) / std` that produced the normalized targets, and the single
`(mean_val, std_val)` pair is applied to train predictions, test
predictions, train labels and test labels alike. -/
theorem c5_denorm (c : Ctx P α) (fs0 : FS P)
    (hB1 : 1 ≤ c.train_batch_size) (hB2 : 1 ≤ c.test_batch_size)
    (hI1 : c.train_images ≠ []) (hI2 : c.test_images ≠ [])
    (hL1 : c.train_images.length = c.train_labels.length)
    (hL2 : c.test_images.length = c.test_labels.length)
    (hn : 1 ≤ c.num_epochs) (hstd : 0 < c.std_val) :
    (∀ v, denorm c.mean_val c.std_val v = v * c.std_val + c.mean_val) ∧
      (∀ v, denorm c.mean_val c.std_val (normalize c.mean_val c.std_val v) = v) ∧
      (∀ v w, v = w →
        denorm c.mean_val c.std_val v = denorm c.mean_val c.std_val w) ∧
      (∀ v w, v ≤ w →
        denorm c.mean_val c.std_val v ≤ denorm c.mean_val c.std_val w) ∧
      (∃ tp sp : List ℚ, (train c fs0).fs.file (reportPath c) =
        some (FileData.xlsx
          ⟨[⟨"Train", c.train_labels.map (denorm c.mean_val c.std_val),
              tp.map (denorm c.mean_val c.std_val), false⟩,
            ⟨"Test", c.test_labels.map (denorm c.mean_val c.std_val),
              sp.map (denorm c.mean_val c.std_val), false⟩]⟩)) := by
  refine ⟨fun v => rfl, ?_, fun v w h => by rw [h], ?_, ?_⟩
  · intro v
    unfold denorm normalize
    rw [div_mul_cancel₀ _ (ne_of_gt hstd), sub_add_cancel]
  · intro v w hvw
    unfold denorm
    have := mul_le_mul_of_nonneg_right hvw hstd.le
    linarith
  · refine ⟨c.train_images.map (c.forward (finalParams c)),
      c.test_images.map (c.forward (finalParams c)), ?_⟩
    rw [train_ok c fs0 hB1 hB2 hI1 hI2 hL1 hL2 hn]
    simp [writeFile, makeDirs, reportPath_ne_ckptPath c]

/-- Witness for C5 at the concrete context. -/
theorem c5_denorm_witness :
    1 ≤ ctxW.train_batch_size ∧ 1 ≤ ctxW.test_batch_size ∧
      ctxW.train_images ≠ [] ∧ ctxW.test_images ≠ [] ∧
      ctxW.train_images.length = ctxW.train_labels.length ∧
      ctxW.test_images.length = ctxW.test_labels.length ∧
      1 ≤ ctxW.num_epochs ∧ 0 < ctxW.std_val ∧
      ((∀ v, denorm ctxW.mean_val ctxW.std_val v = v * ctxW.std_val + ctxW.mean_val) ∧
        (∀ v, denorm ctxW.mean_val ctxW.std_val
          (normalize ctxW.mean_val ctxW.std_val v) = v) ∧
        (∀ v w, v = w →
          denorm ctxW.mean_val ctxW.std_val v = denorm ctxW.mean_val ctxW.std_val w) ∧
        (∀ v w, v ≤ w →
          denorm ctxW.mean_val ctxW.std_val v ≤ denorm ctxW.mean_val ctxW.std_val w) ∧
        (∃ tp sp : List ℚ, (train ctxW fsW).fs.file (reportPath ctxW) =
          some (FileData.xlsx
            ⟨[⟨"Train", ctxW.train_labels.map (denorm ctxW.mean_val ctxW.std_val),
                tp.map (denorm ctxW.mean_val ctxW.std_val), false⟩,
              ⟨"Test", ctxW.test_labels.map (denorm ctxW.mean_val ctxW.std_val),
                sp.map (denorm ctxW.mean_val ctxW.std_val), false⟩]⟩))) :=
  ⟨by decide, by decide, by decide, by decide, by decide, by decide, by decide,
    by decide,
    c5_denorm ctxW fsW (by decide) (by decide) (by decide) (by decide) (by decide)
      (by decide) (by decide) (by decide)⟩

/-- C6: every completed `train()` run writes exactly one checkpoint, holding
the final parameter state together with the normalization scalars `mean` and
`std`, at `{model_dir}/model{target}.pth`; the destination directory is
ensured to exist with no error when it already does, any existing file at
that path is overwritten wholesale, and no path other than the checkpoint
and the report is touched. -/
theorem c6_checkpoint (c : Ctx P α) (fs0 : FS P)
    (hB1 : 1 ≤ c.train_batch_size) (hB2 : 1 ≤ c.test_batch_size)
    (hI1 : c.train_images ≠ []) (hI2 : c.test_images ≠ [])
    (hL1 : c.train_images.length = c.train_labels.length)
    (hL2 : c.test_images.length = c.test_labels.length)
    (hn : 1 ≤ c.num_epochs) :
    (train c fs0).status = TStatus.ok ∧
      (train c fs0).fs.file (ckptPath c) =
        some (FileData.pth ⟨finalParams c, c.mean_val, c.std_val⟩) ∧
      ckptPath c = c.model_dir ++ "/model" ++ toString c.target_col ++ ".pth" ∧
      (train c fs0).fs.hasDir c.model_dir = true ∧
      (∀ d, d ≠ c.model_dir → (train c fs0).fs.hasDir d = fs0.hasDir d) ∧
      (∀ q, q ≠ ckptPath c → q ≠ reportPath c →
        (train c fs0).fs.file q = fs0.file q) := by
  rw [train_ok c fs0 hB1 hB2 hI1 hI2 hL1 hL2 hn]
  refine ⟨rfl, ?_, rfl, ?_, ?_, ?_⟩
  · simp [writeFile]
  · simp [writeFile, makeDirs]
  · intro d hd
    simp [writeFile, makeDirs, hd]
  · intro q h1 h2
    simp [writeFile, makeDirs, h1, h2]

/-- Witness for C6 at the concrete context over an arbitrary starting
filesystem state (here the empty one). -/
theorem c6_checkpoint_witness :
    1 ≤ ctxW.train_batch_size ∧ 1 ≤ ctxW.test_batch_size ∧
      ctxW.train_images ≠ [] ∧ ctxW.test_images ≠ [] ∧
      ctxW.train_images.length = ctxW.train_labels.length ∧
      ctxW.test_images.length = ctxW.test_labels.length ∧
      1 ≤ ctxW.num_epochs ∧
      ((train ctxW fsW).status = TStatus.ok ∧
        (train ctxW fsW).fs.file (ckptPath ctxW) =
          some (FileData.pth ⟨finalParams ctxW, ctxW.mean_val, ctxW.std_val⟩) ∧
        ckptPath ctxW =
          ctxW.model_dir ++ "/model" ++ toString ctxW.target_col ++ ".pth" ∧
        (train ctxW fsW).fs.hasDir ctxW.model_dir = true ∧
        (∀ d, d ≠ ctxW.model_dir →
          (train ctxW fsW).fs.hasDir d = fsW.hasDir d) ∧
        (∀ q, q ≠ ckptPath ctxW → q ≠ reportPath ctxW →
          (train ctxW fsW).fs.file q = fsW.file q)) :=
  ⟨by decide, by decide, by decide, by decide, by decide, by decide, by decide,
    c6_checkpoint ctxW fsW (by decide) (by decide) (by decide) (by decide)
      (by decide) (by decide) (by decide)⟩

/-- C7: every completed `train()` run writes the single report file
`predictions_vs_actual_col{target}.xlsx` containing exactly the two sheets
`"Train"` and `"Test"`, each with a `"True"` and a `"Predicted"` column, no
index column, one row per sample of the corresponding split, populated from
the denormalized predictions and labels of the last evaluation pass. -/
theorem c7_report (c : Ctx P α) (fs0 : FS P)
    (hB1 : 1 ≤ c.train_batch_size) (hB2 : 1 ≤ c.test_batch_size)
    (hI1 : c.train_images ≠ []) (hI2 : c.test_images ≠ [])
    (hL1 : c.train_images.length = c.train_labels.length)
    (hL2 : c.test_images.length = c.test_labels.length)
    (hn : 1 ≤ c.num_epochs) :
    ∃ r : Report,
      (train c fs0).fs.file (reportPath c) = some (FileData.xlsx r) ∧
      reportPath c =
        "predictions_vs_actual_col" ++ toString c.target_col ++ ".xlsx" ∧
      r.sheets.length = 2 ∧
      r.sheets.map Sheet.name = ["Train", "Test"] ∧
      (∀ s ∈ r.sheets, s.indexCol = false) ∧
      r.sheets.map Sheet.colTrue =
        [c.train_labels.map (denorm c.mean_val c.std_val),
          c.test_labels.map (denorm c.mean_val c.std_val)] ∧
      r.sheets.map Sheet.colPred =
        [(c.train_images.map (c.forward (finalParams c))).map
            (denorm c.mean_val c.std_val),
          (c.test_images.map (c.forward (finalParams c))).map
            (denorm c.mean_val c.std_val)] ∧
      r.sheets.map (fun s => s.colTrue.length) =
        [c.train_images.length, c.test_images.length] ∧
      r.sheets.map (fun s => s.colPred.length) =
        [c.train_images.length, c.test_images.length] := by
  rw [train_ok c fs0 hB1 hB2 hI1 hI2 hL1 hL2 hn]
  refine ⟨⟨[⟨"Train", c.train_labels.map (denorm c.mean_val c.std_val),
      (c.train_images.map (c.forward (finalParams c))).map
        (denorm c.mean_val c.std_val), false⟩,
    ⟨"Test", c.test_labels.map (denorm c.mean_val c.std_val),
      (c.test_images.map (c.forward (finalParams c))).map
        (denorm c.mean_val c.std_val), false⟩]⟩,
    ?_, rfl, rfl, rfl, ?_, rfl, rfl, ?_, ?_⟩
  · simp [writeFile, makeDirs, reportPath_ne_ckptPath c]
  · intro s hs
    simp only [List.mem_cons, List.not_mem_nil, or_false] at hs
    rcases hs with rfl | rfl
    · rfl
    · rfl
  · simp [hL1, hL2]
  · simp

/-- Witness for C7 at the concrete context. -/
theorem c7_report_witness :
    1 ≤ ctxW.train_batch_size ∧ 1 ≤ ctxW.test_batch_size ∧
      ctxW.train_images ≠ [] ∧ ctxW.test_images ≠ [] ∧
      ctxW.train_images.length = ctxW.train_labels.length ∧
      ctxW.test_images.length = ctxW.test_labels.length ∧
      1 ≤ ctxW.num_epochs ∧
      (∃ r : Report,
        (train ctxW fsW).fs.file (reportPath ctxW) = some (FileData.xlsx r) ∧
        reportPath ctxW =
          "predictions_vs_actual_col" ++ toString ctxW.target_col ++ ".xlsx" ∧
        r.sheets.length = 2 ∧
        r.sheets.map Sheet.name = ["Train", "Test"] ∧
        (∀ s ∈ r.sheets, s.indexCol = false) ∧
        r.sheets.map Sheet.colTrue =
          [ctxW.train_labels.map (denorm ctxW.mean_val ctxW.std_val),
            ctxW.test_labels.map (denorm ctxW.mean_val ctxW.std_val)] ∧
        r.sheets.map Sheet.colPred =
          [(ctxW.train_images.map (ctxW.forward (finalParams ctxW))).map
              (denorm ctxW.mean_val ctxW.std_val),
            (ctxW.test_images.map (ctxW.forward (finalParams ctxW))).map
              (denorm ctxW.mean_val ctxW.std_val)] ∧
        r.sheets.map (fun s => s.colTrue.length) =
          [ctxW.train_images.length, ctxW.test_images.length] ∧
        r.sheets.map (fun s => s.colPred.length) =
          [ctxW.train_images.length, ctxW.test_images.length]) :=
  ⟨by decide, by decide, by decide, by decide, by decide, by decide, by decide,
    c7_report ctxW fsW (by decide) (by decide) (by decide) (by decide)
      (by decide) (by decide) (by decide)⟩

/-- C8: every `predict_in_batches` call puts the model into evaluation mode
and disables gradient tracking for the duration of the call (the ambient
autograd flag is restored on exit), and does not restore the model's prior
train/eval mode afterwards: the model is left in evaluation mode regardless
of its mode before the call. -/
theorem c8_predict_mode (m : Model P α β) (images : List α) (B : Nat)
    (g : Bool) :
    (predict_in_batches m images B g).modelAfter.training = false ∧
      (predict_in_batches m images B g).gradDuring = false ∧
      (predict_in_batches m images B g).gradAfter = g :=
  ⟨rfl, rfl, rfl⟩

/-- C9: `predict_in_batches` leaves the model's trainable parameters (and
its forward function) unchanged — it performs only forward passes under
disabled gradient tracking, so the parameter values after the call equal
the parameter values before it. -/
theorem c9_predict_params_frame (m : Model P α β) (images : List α) (B : Nat)
    (g : Bool) :
    (predict_in_batches m images B g).modelAfter.params = m.params ∧
      (predict_in_batches m images B g).modelAfter.forward = m.forward :=
  ⟨rfl, rfl⟩

/-- C10: for every configured epoch count `num_epochs ≥ 1`, the evaluation
condition holds at the final epoch, so the run completes and the report's
retained predictions are the ones computed from the final parameters — the
model state after the last optimizer update — never from a stale model. -/
theorem c10_final_eval_fresh (c : Ctx P α) (fs0 : FS P)
    (hB1 : 1 ≤ c.train_batch_size) (hB2 : 1 ≤ c.test_batch_size)
    (hI1 : c.train_images ≠ []) (hI2 : c.test_images ≠ [])
    (hL1 : c.train_images.length = c.train_labels.length)
    (hL2 : c.test_images.length = c.test_labels.length)
    (hn : 1 ≤ c.num_epochs) :
    evalCond (c.num_epochs - 1) c.num_epochs = true ∧
      (train c fs0).status = TStatus.ok ∧
      (∃ r : Report,
        (train c fs0).fs.file (reportPath c) = some (FileData.xlsx r) ∧
        r.sheets.map Sheet.colPred =
          [(c.train_images.map (c.forward (finalParams c))).map
              (denorm c.mean_val c.std_val),
            (c.test_images.map (c.forward (finalParams c))).map
              (denorm c.mean_val c.std_val)]) := by
  rw [train_ok c fs0 hB1 hB2 hI1 hI2 hL1 hL2 hn]
  refine ⟨evalCond_last c.num_epochs, rfl,
    ⟨⟨[⟨"Train", c.train_labels.map (denorm c.mean_val c.std_val),
        (c.train_images.map (c.forward (finalParams c))).map
          (denorm c.mean_val c.std_val), false⟩,
      ⟨"Test", c.test_labels.map (denorm c.mean_val c.std_val),
        (c.test_images.map (c.forward (finalParams c))).map
          (denorm c.mean_val c.std_val), false⟩]⟩, ?_, rfl⟩⟩
  simp [writeFile, makeDirs, reportPath_ne_ckptPath c]

/-- Witness for C10 at the concrete context. -/
theorem c10_final_eval_fresh_witness :
    1 ≤ ctxW.train_batch_size ∧ 1 ≤ ctxW.test_batch_size ∧
      ctxW.train_images ≠ [] ∧ ctxW.test_images ≠ [] ∧
      ctxW.train_images.length = ctxW.train_labels.length ∧
      ctxW.test_images.length = ctxW.test_labels.length ∧
      1 ≤ ctxW.num_epochs ∧
      (evalCond (ctxW.num_epochs - 1) ctxW.num_epochs = true ∧
        (train ctxW fsW).status = TStatus.ok ∧
        (∃ r : Report,
          (train ctxW fsW).fs.file (reportPath ctxW) = some (FileData.xlsx r) ∧
          r.sheets.map Sheet.colPred =
            [(ctxW.train_images.map (ctxW.forward (finalParams ctxW))).map
                (denorm ctxW.mean_val ctxW.std_val),
              (ctxW.test_images.map (ctxW.forward (finalParams ctxW))).map
                (denorm ctxW.mean_val ctxW.std_val)])) :=
  ⟨by decide, by decide, by decide, by decide, by decide, by decide, by decide,
    c10_final_eval_fresh ctxW fsW (by decide) (by decide) (by decide)
      (by decide) (by decide) (by decide) (by decide)⟩

end ResnetTrain
